import Mathlib

/-!
Shallow embedding of the OAuth 2.0 authorization-endpoint and token-revocation
handlers of this repository (src/mcp/server/auth/handlers/authorize.py,
src/mcp/server/auth/handlers/revoke.py, src/mcp/shared/auth.py), together with
theorems settling the specification claims about them.

Conventions of the embedding:
* Starlette `QueryParams` / `FormData` multidicts become association lists of
  `(key, value)` pairs, where a value is either a string or a non-string form
  entry (an upload).  `get` returns the value of the last pair with a matching
  key, exactly as Python builds `self._dict = {k: v for k, v in items}`.
* Pydantic URL values (`AnyHttpUrl`) become plain strings; pydantic's
  parse-and-normalise step is an explicit parameter `parseUrl` of the
  environment, since pydantic is an external collaborator of the repository.
* Python exceptions become `Except` values.  The nonlocal mutable variables
  `state`, `redirect_uri`, `client`, `params` of `authorization_handler`
  become an explicit `Ctx` record threaded through the translation; a raised
  exception carries the context mutated so far, as `nonlocal` does.
* External collaborators (client store, provider.authorize, the client
  authenticator of the revocation endpoint) are function-valued parameters.
-/

namespace McpAuth

/-- A pydantic `AnyHttpUrl`, represented by its serialised string. -/
abbrev Url := String

/-- A raw request parameter value: a string, or a non-string form entry. -/
inductive PValue where
  | str (s : String)
  | file
deriving DecidableEq, Repr

/-- A Starlette multidict (`QueryParams` or `FormData`): ordered pairs. -/
abbrev Params := List (String × PValue)

/-- Multidict lookup: the value of the last pair whose key matches, as in
`{k: v for k, v in items}` followed by `dict.get`. -/
def getParam (ps : Params) (key : String) : Option PValue :=
  ps.foldl (fun acc kv => if kv.1 = key then some kv.2 else acc) none

/-- Python `key in params` membership on the multidict. -/
def hasKey (ps : Params) (key : String) : Bool :=
  (getParam ps key).isSome

/-- Translation of `best_effort_extract_string` (authorize.py): `params.get(key)`
if it exists and is a string, else `None`; `None` when `params` is `None`. -/
def best_effort_extract_string (key : String) (params : Option Params) : Option String :=
  match params with
  | none => none
  | some ps =>
    match getParam ps key with
    | some (.str s) => some s
    | _ => none

/-- Python `s.split(" ")` with an explicit single-space separator: splits at
every space, preserving empty fragments; the result is never empty. -/
def pySplitAux : List Char → String → List String
  | [], acc => [acc]
  | c :: cs, acc => if c = ' ' then acc :: pySplitAux cs "" else pySplitAux cs (acc.push c)

/-- Python `s.split(" ")`. -/
def pySplitSpace (s : String) : List String :=
  pySplitAux s.data ""

/-- The client-registration record `OAuthClientInformationFull`
(src/mcp/shared/auth.py), restricted to the fields the handlers read.
`redirect_uris` is declared with pydantic `min_length=1`; that registration-time
invariant is carried as a hypothesis where a theorem needs it. -/
structure Client where
  client_id : String
  redirect_uris : List Url
  scope : Option String
deriving DecidableEq, Repr

/-- Translation of `OAuthClientMetadata.validate_scope` (src/mcp/shared/auth.py):
`None` means no constraint; otherwise every space-delimited requested token must
be among the client's registered tokens, and the first disallowed token raises
`InvalidScopeError` (modelled as `Except.error` carrying the message). -/
def Client.validate_scope (self : Client) (requested_scope : Option String) :
    Except String (Option (List String)) :=
  match requested_scope with
  | none => .ok none
  | some rs =>
    let requested_scopes := pySplitSpace rs
    let allowed_scopes := match self.scope with
      | none => []
      | some s => pySplitSpace s
    match requested_scopes.find? (fun sc => !(allowed_scopes.contains sc)) with
    | some sc => .error ("Client was not registered with scope " ++ sc)
    | none => .ok (some requested_scopes)

/-- Translation of the free function `validate_scope` (authorize.py, lines
54-64); its body is identical to `Client.validate_scope`, raising
`InvalidRequestError` instead. -/
def validate_scope (requested_scope : Option String) (client : Client) :
    Except String (Option (List String)) :=
  match requested_scope with
  | none => .ok none
  | some rs =>
    let requested_scopes := pySplitSpace rs
    let allowed_scopes := match client.scope with
      | none => []
      | some s => pySplitSpace s
    match requested_scopes.find? (fun sc => !(allowed_scopes.contains sc)) with
    | some sc => .error ("Client was not registered with scope " ++ sc)
    | none => .ok (some requested_scopes)

/-- Translation of `validate_redirect_uri` (authorize.py, lines 67-82): a
present candidate must be a member of the registered set; an absent candidate
defaults to the sole registered URI, and fails when there are zero or several. -/
def validate_redirect_uri (redirect_uri : Option Url) (client : Client) :
    Except String Url :=
  match redirect_uri with
  | some u =>
    if client.redirect_uris.contains u then .ok u
    else .error ("Redirect URI " ++ u ++ " not registered for client")
  | none =>
    match client.redirect_uris with
    | [u] => .ok u
    | _ => .error "redirect_uri must be specified when client has multiple registered URIs"

/-- The closed `ErrorCode` literal enumeration (authorize.py, lines 83-91). -/
inductive ErrorCode where
  | invalid_request
  | unauthorized_client
  | access_denied
  | unsupported_response_type
  | invalid_scope
  | server_error
  | temporarily_unavailable
deriving DecidableEq, Repr

/-- Serialisation of an `ErrorCode`, as pydantic renders the literal. -/
def ErrorCode.str : ErrorCode → String
  | .invalid_request => "invalid_request"
  | .unauthorized_client => "unauthorized_client"
  | .access_denied => "access_denied"
  | .unsupported_response_type => "unsupported_response_type"
  | .invalid_scope => "invalid_scope"
  | .server_error => "server_error"
  | .temporarily_unavailable => "temporarily_unavailable"

/-- The `ErrorResponse` pydantic model (authorize.py, lines 92-97). -/
structure ErrorResponse where
  error : ErrorCode
  error_description : String
  error_uri : Option String
  state : Option String
deriving DecidableEq, Repr

/-- A Starlette response as the handlers build them: a redirect, a JSON error
body, or an empty body, each with its explicit headers. -/
inductive Response where
  | redirect (status : Nat) (location : String) (headers : List (String × String))
  | jsonError (status : Nat) (body : ErrorResponse) (headers : List (String × String))
  | empty (status : Nat) (headers : List (String × String))
deriving DecidableEq, Repr

/-- Headers of a response. -/
def Response.headersOf : Response → List (String × String)
  | .redirect _ _ h => h
  | .jsonError _ _ h => h
  | .empty _ h => h

/-- One pydantic field-level validation error: field location and error type. -/
structure FieldError where
  loc : String
  ty : String
deriving DecidableEq, Repr

/-- The typed `AuthorizationRequest` model (authorize.py, lines 30-50). -/
structure AuthorizationRequest where
  client_id : String
  redirect_uri : Option Url
  response_type : String
  code_challenge : String
  code_challenge_method : String
  state : Option String
  scope : Option String
deriving DecidableEq, Repr

/-- The parameters handed to the provider's `authorize` capability. -/
structure AuthorizationParams where
  state : Option String
  scopes : Option (List String)
  code_challenge : String
  redirect_uri : Url
deriving DecidableEq, Repr

/-- Value of the nonlocal `client` variable: Python `None`, the falsy empty
string produced by `client_id and ...` when `client_id == ""`, or a client. -/
inductive ClientSlot where
  | noneV
  | falsyStr
  | client (c : Client)
deriving DecidableEq, Repr

/-- Python truthiness of the `client` variable. -/
def ClientSlot.isClient : ClientSlot → Bool
  | .client _ => true
  | _ => false

/-- The nonlocal mutable context of `authorization_handler` (lines 116-119). -/
structure Ctx where
  state : Option String
  redirect_uri : Option Url
  client : ClientSlot
  params : Option Params
deriving DecidableEq, Repr

/-- The external collaborators of the authorization handler: the client
directory, the provider's authorization decision (an `Except.error` stands for
a raised exception), and pydantic's `AnyHttpUrl` parse-and-normalise step. -/
structure Env where
  get_client : String → Option Client
  authorize : Client → AuthorizationParams → Except Unit String
  parseUrl : String → Option Url

/-- Pydantic validation of a required `str` field: absent keys give a
`missing` error, non-string values a `string_type` error. -/
def vStrReq (ps : Params) (key : String) : Except FieldError String :=
  match getParam ps key with
  | none => .error ⟨key, "missing"⟩
  | some (.str s) => .ok s
  | some .file => .error ⟨key, "string_type"⟩

/-- Pydantic validation of an `Optional[str]` field defaulting to `None`. -/
def vOptStr (ps : Params) (key : String) : Except FieldError (Option String) :=
  match getParam ps key with
  | none => .ok none
  | some (.str s) => .ok (some s)
  | some .file => .error ⟨key, "string_type"⟩

/-- Pydantic validation of an `AnyHttpUrl | None` field defaulting to `None`:
a present string must parse as an http(s) URL. -/
def vOptUrl (parseUrl : String → Option Url) (ps : Params) (key : String) :
    Except FieldError (Option Url) :=
  match getParam ps key with
  | none => .ok none
  | some (.str s) =>
    match parseUrl s with
    | some u => .ok (some u)
    | none => .error ⟨key, "url_parsing"⟩
  | some .file => .error ⟨key, "url_parsing"⟩

/-- Pydantic validation of a required `Literal[lit]` field: absent keys give a
`missing` error, any present value other than the literal a `literal_error`. -/
def vLitReq (ps : Params) (key lit : String) : Except FieldError String :=
  match getParam ps key with
  | none => .error ⟨key, "missing"⟩
  | some (.str s) => if s = lit then .ok s else .error ⟨key, "literal_error"⟩
  | some .file => .error ⟨key, "literal_error"⟩

/-- Pydantic validation of a `Literal[lit]` field with default `lit`. -/
def vLitDef (ps : Params) (key lit : String) : Except FieldError String :=
  match getParam ps key with
  | none => .ok lit
  | some (.str s) => if s = lit then .ok s else .error ⟨key, "literal_error"⟩
  | some .file => .error ⟨key, "literal_error"⟩

/-- The error list contributed by one field validation. -/
def errsOf {α : Type} : Except FieldError α → List FieldError
  | .error e => [e]
  | .ok _ => []

/-- Pydantic `AuthorizationRequest.model_validate(params)` (authorize.py, line
173 against the model of lines 30-50): each field is validated, and either all
succeed, or the field-level errors are collected in declaration order. -/
def modelValidateAuthRequest (parseUrl : String → Option Url) (ps : Params) :
    Except (List FieldError) AuthorizationRequest :=
  let r1 := vStrReq ps "client_id"
  let r2 := vOptUrl parseUrl ps "redirect_uri"
  let r3 := vLitReq ps "response_type" "code"
  let r4 := vStrReq ps "code_challenge"
  let r5 := vLitDef ps "code_challenge_method" "S256"
  let r6 := vOptStr ps "state"
  let r7 := vOptStr ps "scope"
  match r1, r2, r3, r4, r5, r6, r7 with
  | .ok a, .ok b, .ok c, .ok d, .ok e, .ok f, .ok g => .ok ⟨a, b, c, d, e, f, g⟩
  | _, _, _, _, _, _, _ =>
    .error (errsOf r1 ++ errsOf r2 ++ errsOf r3 ++ errsOf r4 ++ errsOf r5 ++ errsOf r6 ++ errsOf r7)

/-- The test of authorize.py line 178: a field error whose location is
`response_type` and whose type is `literal_error`. -/
def isRespTypeLiteralError (fe : FieldError) : Bool :=
  fe.loc = "response_type" && fe.ty = "literal_error"

/-- The error classification of authorize.py lines 176-180: the code is
`unsupported_response_type` exactly when some field error is a `literal_error`
at `response_type`, and `invalid_request` otherwise. -/
def classifyParseError (errs : List FieldError) : ErrorCode :=
  if errs.any isRespTypeLiteralError then .unsupported_response_type
  else .invalid_request

/-- Modelled from the spec: `stringify_pydantic_error`
(mcp/server/auth/errors.py, not under src/) renders the field-level validation
errors as a single human-readable description. -/
def stringify_pydantic_error (errs : List FieldError) : String :=
  String.intercalate "; " (errs.map (fun fe => fe.loc ++ ": " ++ fe.ty))

/-- Serialisation of a flat query-parameter list. -/
def urlencodePairs (q : List (String × String)) : String :=
  String.intercalate "&" (q.map (fun kv => kv.1 ++ "=" ++ kv.2))

/-- Modelled from the spec: `construct_redirect_uri`
(mcp/server/auth/provider.py, not under src/) appends the given parameters to
the URI's query string, keeping any query it already carries. -/
def construct_redirect_uri (uri : String) (q : List (String × String)) : String :=
  uri ++ (if uri.data.contains '?' then "&" else "?") ++ urlencodePairs q

/-- The keyword arguments `error_resp.model_dump(exclude_none=True)` passed to
`construct_redirect_uri` on the redirect error path (authorize.py, line 149):
`error` and `error_description` always, `error_uri` never (it is always `None`
here), and `state` exactly when present. -/
def errQuery (e : ErrorCode) (d : String) (st : Option String) : List (String × String) :=
  [("error", e.str), ("error_description", d)] ++
    (match st with
     | some s => [("state", s)]
     | none => [])

/-- Lines 123-126 of `error_response`: when no client is resolved and
`attempt_load_client` holds, read a raw `client_id` and look it up; the Python
expression `client_id and await ...get_client(client_id)` leaves `None`, the
falsy empty string, a found client, or the store's `None`. -/
def attemptLoadClient (env : Env) (ctx : Ctx) (attempt_load_client : Bool) : Ctx :=
  match ctx.client, attempt_load_client with
  | .noneV, true =>
    match best_effort_extract_string "client_id" ctx.params with
    | none => ctx
    | some cid =>
      if cid = "" then { ctx with client := .falsyStr }
      else
        match env.get_client cid with
        | some c => { ctx with client := .client c }
        | none => ctx
  | _, _ => ctx

/-- Lines 127-136 of `error_response`: when a client is resolved but no
redirect URI is, recover one from the raw parameters.  The
`AnyHttpUrlModel.model_validate` call sits outside the `try` block, so a
missing, non-string or unparseable raw value raises a `ValidationError` out of
`error_response` (flag `true` in the result); a recovered URL is validated
against the client inside the `try`, whose failures are swallowed. -/
def attemptLoadRedirect (env : Env) (ctx : Ctx) : Ctx × Bool :=
  match ctx.redirect_uri, ctx.client with
  | none, .client c =>
    if ctx.params.isSome && !(match ctx.params with
                              | some ps => hasKey ps "redirect_uri"
                              | none => false) then
      match validate_redirect_uri none c with
      | .ok u => ({ ctx with redirect_uri := some u }, false)
      | .error _ => (ctx, false)
    else
      match best_effort_extract_string "redirect_uri" ctx.params with
      | none => (ctx, true)
      | some s =>
        match env.parseUrl s with
        | none => (ctx, true)
        | some u0 =>
          match validate_redirect_uri (some u0) c with
          | .ok u => ({ ctx with redirect_uri := some u }, false)
          | .error _ => (ctx, false)
  | _, _ => (ctx, false)

/-- Lines 137-139 of `error_response`: opportunistically read a raw `state`. -/
def loadState (ctx : Ctx) : Ctx :=
  match ctx.state with
  | some _ => ctx
  | none => { ctx with state := best_effort_extract_string "state" ctx.params }

/-- Translation of the nested `error_response` closure (authorize.py, lines
121-158).  The returned `Ctx` is the nonlocal context after the call, also
when the call raises (`Except.error`): redirect errors go to the registered
URI with the error fields as query parameters, any other case is a direct 400
JSON body, and both carry `Cache-Control: no-store`. -/
def error_response (env : Env) (ctx : Ctx) (e : ErrorCode) (d : String)
    (attempt_load_client : Bool) : Ctx × Except Unit Response :=
  let ctx1 := attemptLoadClient env ctx attempt_load_client
  match attemptLoadRedirect env ctx1 with
  | (ctx2, true) => (ctx2, .error ())
  | (ctx2, false) =>
    let ctx3 := loadState ctx2
    match ctx3.redirect_uri, ctx3.client with
    | some u, .client _ =>
      (ctx3, .ok (.redirect 302 (construct_redirect_uri u (errQuery e d ctx3.state))
        [("Cache-Control", "no-store")]))
    | _, _ =>
      (ctx3, .ok (.jsonError 400 ⟨e, d, none, ctx3.state⟩ [("Cache-Control", "no-store")]))

/-- The catch-all `except Exception` block (authorize.py, lines 231-234): it
reports `server_error` through `error_response`; an exception raised by that
very call propagates unhandled out of the handler (`Except.error`). -/
def runCatchAll (env : Env) (ctx : Ctx) : Except Unit Response :=
  match error_response env ctx .server_error "An unexpected error occurred" true with
  | (_, .ok r) => .ok r
  | (_, .error _) => .error ()

/-- A call of `error_response` from inside the handler's `try` block: if it
raises, the exception is caught by the catch-all, which reports
`server_error` with the context as mutated so far. -/
def runErrorResponse (env : Env) (ctx : Ctx) (e : ErrorCode) (d : String)
    (attempt_load_client : Bool) : Except Unit Response :=
  match error_response env ctx e d attempt_load_client with
  | (_, .ok r) => .ok r
  | (ctx2, .error _) => runCatchAll env ctx2

/-- Translation of `authorization_handler` (authorize.py, lines 112-234) over
an already-decoded parameter multidict (the GET query string or POST form
body).  The result is `Except.error ()` exactly when an exception escapes the
handler to the transport layer. -/
def authorization_handler (env : Env) (params : Params) : Except Unit Response :=
  let ctx1 : Ctx :=
    { state := best_effort_extract_string "state" (some params)
      redirect_uri := none
      client := .noneV
      params := some params }
  match modelValidateAuthRequest env.parseUrl params with
  | .error errs =>
    runErrorResponse env ctx1 (classifyParseError errs) (stringify_pydantic_error errs) true
  | .ok ar =>
    let ctx2 := { ctx1 with state := ar.state }
    match env.get_client ar.client_id with
    | none =>
      runErrorResponse env ctx2 .invalid_request
        ("Client ID " ++ ar.client_id ++ " not found") false
    | some client =>
      let ctx3 := { ctx2 with client := .client client }
      match validate_redirect_uri ar.redirect_uri client with
      | .error m => runErrorResponse env ctx3 .invalid_request m true
      | .ok ruri =>
        let ctx4 := { ctx3 with redirect_uri := some ruri }
        match validate_scope ar.scope client with
        | .error m => runErrorResponse env ctx4 .invalid_scope m true
        | .ok scopes =>
          match env.authorize client
              { state := ar.state
                scopes := scopes
                code_challenge := ar.code_challenge
                redirect_uri := ruri } with
          | .ok loc => .ok (.redirect 302 loc [("Cache-Control", "no-store")])
          | .error _ => runErrorResponse env ctx4 .server_error "An unexpected error occurred" true

/-- The `RevocationRequest` body (revoke.py, line 23): the token-revocation
fields of `OAuthTokenRevocationRequest` plus the client-authentication fields
of `ClientAuthRequest`. -/
structure RevocationRequest where
  token : String
  token_type_hint : Option String
  client_id : String
  client_secret : Option String
deriving DecidableEq, Repr

/-- The observable outcome of one revocation call: whether the configured
token-revocation hook was invoked, and the response or the exception
(`InvalidRequestError` on a parse failure, the authenticator's error on an
authentication failure) that propagates. -/
structure RevokeOutcome where
  hookInvoked : Bool
  result : Except String Response
deriving Repr

/-- Translation of `revocation_handler` (revoke.py, lines 39-62): parse the
body, authenticate the client, invoke the revocation hook when configured, and
return an empty 200 with `Cache-Control: no-store` and `Pragma: no-cache`.
`parsed` is the outcome of `RevocationRequest.model_validate_json` on the raw
body, `authenticate` the external client authenticator, and `hasRevokeHook`
whether `provider.revoke_token` is configured. -/
def revocation_handler (hasRevokeHook : Bool)
    (authenticate : RevocationRequest → Except String String)
    (parsed : Except String RevocationRequest) : RevokeOutcome :=
  match parsed with
  | .error e => ⟨false, .error ("Invalid request body: " ++ e)⟩
  | .ok req =>
    match authenticate req with
    | .error e => ⟨false, .error e⟩
    | .ok _ =>
      ⟨hasRevokeHook, .ok (.empty 200 [("Cache-Control", "no-store"), ("Pragma", "no-cache")])⟩

/-- A context whose trusted parts were really established: a resolved client
comes from the client directory, and a resolved redirect URI passed
`validate_redirect_uri` against the resolved client. -/
def CtxOk (env : Env) (ctx : Ctx) : Prop :=
  (∀ c, ctx.client = .client c → ∃ cid, env.get_client cid = some c) ∧
  (∀ u, ctx.redirect_uri = some u →
    ∃ c cand, ctx.client = .client c ∧ validate_redirect_uri cand c = .ok u)

/-- The state field carried by an emitted error report: the JSON body's
`state`, or the `state` query parameter of a constructed error redirect. -/
def RespHasState (r : Response) (st : Option String) : Prop :=
  match r with
  | .jsonError _ body _ => body.state = st
  | .redirect _ loc _ => ∃ u e d, loc = construct_redirect_uri u (errQuery e d st)
  | .empty _ _ => True

/-- Every redirect response among the error reports targets a URI that passed
`validate_redirect_uri` against a client resolved from the directory. -/
def ErrorRedirectValidated (env : Env) (r : Response) : Prop :=
  ∀ st loc hdrs, r = .redirect st loc hdrs →
    ∃ cid c cand u, env.get_client cid = some c ∧ validate_redirect_uri cand c = .ok u ∧
      ∃ e d stt, loc = construct_redirect_uri u (errQuery e d stt)

/-- The request fails at one of the five failure points of the handler's state
machine: parse, client lookup, redirect-URI validation, scope validation, or
the provider's authorization decision. -/
def IsFailurePath (env : Env) (ps : Params) : Prop :=
  (∃ errs, modelValidateAuthRequest env.parseUrl ps = .error errs) ∨
  (∃ ar, modelValidateAuthRequest env.parseUrl ps = .ok ar ∧
    (env.get_client ar.client_id = none ∨
     (∃ c, env.get_client ar.client_id = some c ∧
       ((∃ m, validate_redirect_uri ar.redirect_uri c = .error m) ∨
        (∃ u, validate_redirect_uri ar.redirect_uri c = .ok u ∧
          ((∃ m, validate_scope ar.scope c = .error m) ∨
           (∃ sc, validate_scope ar.scope c = .ok sc ∧
             env.authorize c ⟨ar.state, sc, ar.code_challenge, u⟩ = .error ())))))))

theorem pySplitAux_ne_nil (l : List Char) (acc : String) : pySplitAux l acc ≠ [] := by
  induction l generalizing acc with
  | nil => simp [pySplitAux]
  | cons c cs ih =>
    unfold pySplitAux
    split
    · simp
    · exact ih _

theorem pySplitSpace_ne_nil (s : String) : pySplitSpace s ≠ [] :=
  pySplitAux_ne_nil s.data ""

theorem attemptLoadClient_fields (env : Env) (ctx : Ctx) (alc : Bool) :
    (attemptLoadClient env ctx alc).state = ctx.state ∧
    (attemptLoadClient env ctx alc).redirect_uri = ctx.redirect_uri ∧
    (attemptLoadClient env ctx alc).params = ctx.params := by
  unfold attemptLoadClient
  split
  · split
    · exact ⟨rfl, rfl, rfl⟩
    · split
      · exact ⟨rfl, rfl, rfl⟩
      · split <;> exact ⟨rfl, rfl, rfl⟩
  · exact ⟨rfl, rfl, rfl⟩

theorem attemptLoadClient_client (env : Env) (ctx : Ctx) (alc : Bool) :
    (attemptLoadClient env ctx alc).client = ctx.client ∨
    (ctx.client = .noneV ∧
      ((attemptLoadClient env ctx alc).client = .falsyStr ∨
       ∃ cid c, env.get_client cid = some c ∧ (attemptLoadClient env ctx alc).client = .client c)) := by
  unfold attemptLoadClient
  split
  case _ =>
    rename_i hcl
    split
    · exact .inl rfl
    case _ cid hcid =>
      split
      · exact .inr ⟨hcl, .inl rfl⟩
      · split
        case _ c hc => exact .inr ⟨hcl, .inr ⟨cid, c, hc, rfl⟩⟩
        case _ => exact .inl rfl
  · exact .inl rfl

theorem attemptLoadRedirect_spec (env : Env) (ctx : Ctx) :
    (attemptLoadRedirect env ctx).1.state = ctx.state ∧
    (attemptLoadRedirect env ctx).1.client = ctx.client ∧
    (attemptLoadRedirect env ctx).1.params = ctx.params ∧
    ((attemptLoadRedirect env ctx).1.redirect_uri = ctx.redirect_uri ∨
      ∃ c cand u, ctx.client = .client c ∧ validate_redirect_uri cand c = .ok u ∧
        (attemptLoadRedirect env ctx).1.redirect_uri = some u) ∧
    ((attemptLoadRedirect env ctx).2 = true → (attemptLoadRedirect env ctx).1 = ctx) := by
  unfold attemptLoadRedirect
  split
  case _ =>
    rename_i c hru hcl
    split
    · split
      case _ u hu => exact ⟨rfl, rfl, rfl, .inr ⟨c, none, u, hcl, hu, rfl⟩, by intro h; simp at h⟩
      case _ => exact ⟨rfl, rfl, rfl, .inl rfl, fun _ => rfl⟩
    · split
      · exact ⟨rfl, rfl, rfl, .inl rfl, fun _ => rfl⟩
      · split
        · exact ⟨rfl, rfl, rfl, .inl rfl, fun _ => rfl⟩
        case _ u0 hu0 =>
          split
          case _ u hu =>
            exact ⟨rfl, rfl, rfl, .inr ⟨c, some u0, u, hcl, hu, rfl⟩, by intro h; simp at h⟩
          case _ => exact ⟨rfl, rfl, rfl, .inl rfl, fun _ => rfl⟩
  · exact ⟨rfl, rfl, rfl, .inl rfl, fun _ => rfl⟩

theorem loadState_spec (ctx : Ctx) :
    (loadState ctx).redirect_uri = ctx.redirect_uri ∧
    (loadState ctx).client = ctx.client ∧
    (loadState ctx).params = ctx.params ∧
    (loadState ctx).state = (match ctx.state with
      | some s => some s
      | none => best_effort_extract_string "state" ctx.params) := by
  unfold loadState
  split
  case _ s hs => exact ⟨rfl, rfl, rfl, hs⟩
  case _ hs => exact ⟨rfl, rfl, rfl, rfl⟩

theorem attemptLoadClient_ctxOk (env : Env) (ctx : Ctx) (alc : Bool) (hok : CtxOk env ctx) :
    CtxOk env (attemptLoadClient env ctx alc) := by
  obtain ⟨hs, hr, hp⟩ := attemptLoadClient_fields env ctx alc
  rcases attemptLoadClient_client env ctx alc with hcl | ⟨hnone, hcl⟩
  · exact ⟨fun c hc => hok.1 c (hcl ▸ hc), fun u hu => by
      obtain ⟨c, cand, h1, h2⟩ := hok.2 u (hr ▸ hu)
      exact ⟨c, cand, hcl ▸ h1, h2⟩⟩
  · constructor
    · intro c hc
      rcases hcl with hf | ⟨cid, c2, hg, hc2⟩
      · rw [hf] at hc; exact nomatch hc
      · rw [hc2] at hc; cases hc; exact ⟨cid, hg⟩
    · intro u hu
      obtain ⟨c, cand, h1, h2⟩ := hok.2 u (hr ▸ hu)
      rw [hnone] at h1; exact nomatch h1

theorem attemptLoadRedirect_ctxOk (env : Env) (ctx : Ctx) (hok : CtxOk env ctx) :
    CtxOk env (attemptLoadRedirect env ctx).1 := by
  obtain ⟨hs, hc, hp, hr, hthrow⟩ := attemptLoadRedirect_spec env ctx
  constructor
  · intro c hcc; exact hok.1 c (hc ▸ hcc)
  · intro u hu
    rcases hr with hsame | ⟨c, cand, u2, hcl, hval, hnew⟩
    · obtain ⟨c, cand, h1, h2⟩ := hok.2 u (hsame ▸ hu)
      exact ⟨c, cand, hc ▸ h1, h2⟩
    · rw [hnew] at hu; cases hu
      exact ⟨c, cand, hc ▸ hcl, hval⟩

theorem loadState_ctxOk (env : Env) (ctx : Ctx) (hok : CtxOk env ctx) :
    CtxOk env (loadState ctx) := by
  obtain ⟨hr, hc, hp, hs⟩ := loadState_spec ctx
  exact ⟨fun c hcc => hok.1 c (hc ▸ hcc), fun u hu => by
    obtain ⟨c, cand, h1, h2⟩ := hok.2 u (hr ▸ hu)
    exact ⟨c, cand, hc ▸ h1, h2⟩⟩

theorem error_response_spec (env : Env) (ctx : Ctx) (e : ErrorCode) (d : String) (alc : Bool)
    (ctx2 : Ctx) (out : Except Unit Response)
    (h : error_response env ctx e d alc = (ctx2, out)) :
    ctx2.params = ctx.params ∧
    (out = .error () → ctx2.state = ctx.state) ∧
    (∀ r, out = .ok r →
      ctx2.state = (match ctx.state with
        | some s => some s
        | none => best_effort_extract_string "state" ctx.params) ∧
      ((∃ u c, ctx2.redirect_uri = some u ∧ ctx2.client = .client c ∧
          r = .redirect 302 (construct_redirect_uri u (errQuery e d ctx2.state))
            [("Cache-Control", "no-store")]) ∨
       ((ctx2.redirect_uri.isSome && ctx2.client.isClient) = false ∧
          r = .jsonError 400 ⟨e, d, none, ctx2.state⟩ [("Cache-Control", "no-store")]))) := by
  obtain ⟨hs1, hr1, hp1⟩ := attemptLoadClient_fields env ctx alc
  simp only [error_response] at h
  split at h
  case _ ctxa hALR =>
    obtain ⟨hs2, hc2, hp2, hr2, hthrow⟩ := attemptLoadRedirect_spec env (attemptLoadClient env ctx alc)
    rw [hALR] at hs2 hc2 hp2 hr2 hthrow
    simp only at hs2 hc2 hp2 hr2 hthrow
    replace hthrow : ctxa = attemptLoadClient env ctx alc := hthrow trivial
    injection h with h1 h2
    subst h1; subst h2
    refine ⟨?_, ?_, ?_⟩
    · rw [hthrow, hp1]
    · intro _; rw [hthrow, hs1]
    · intro r hr; exact nomatch hr
  case _ ctxa hALR =>
    obtain ⟨hs2, hc2, hp2, hr2, _⟩ := attemptLoadRedirect_spec env (attemptLoadClient env ctx alc)
    rw [hALR] at hs2 hc2 hp2 hr2
    simp only at hs2 hc2 hp2 hr2
    obtain ⟨hr3, hc3, hp3, hs3⟩ := loadState_spec ctxa
    have hstate : (loadState ctxa).state = (match ctx.state with
        | some s => some s
        | none => best_effort_extract_string "state" ctx.params) := by
      rw [hs3, hs2, hs1, hp2, hp1]
    split at h
    case _ u c hru hcl =>
      injection h with h1 h2
      subst h1; subst h2
      refine ⟨by rw [hp3, hp2, hp1], ?_, ?_⟩
      · intro hbad; exact nomatch hbad
      · intro r hrr
        injection hrr with hrr
        subst hrr
        exact ⟨hstate, .inl ⟨u, c, hru, hcl, rfl⟩⟩
    case _ hno =>
      injection h with h1 h2
      subst h1; subst h2
      refine ⟨by rw [hp3, hp2, hp1], ?_, ?_⟩
      · intro hbad; exact nomatch hbad
      · intro r hrr
        injection hrr with hrr
        subst hrr
        refine ⟨hstate, .inr ⟨?_, rfl⟩⟩
        cases hru : (loadState ctxa).redirect_uri with
        | none => simp
        | some u =>
          cases hcl : (loadState ctxa).client with
          | client c => exact ((hno u c) hru hcl).elim
          | noneV => simp [ClientSlot.isClient]
          | falsyStr => simp [ClientSlot.isClient]

theorem error_response_ctxOk (env : Env) (ctx : Ctx) (e : ErrorCode) (d : String) (alc : Bool)
    (ctx2 : Ctx) (out : Except Unit Response)
    (h : error_response env ctx e d alc = (ctx2, out)) (hok : CtxOk env ctx) :
    CtxOk env ctx2 := by
  have hok1 := attemptLoadClient_ctxOk env ctx alc hok
  have hok2 := attemptLoadRedirect_ctxOk env (attemptLoadClient env ctx alc) hok1
  simp only [error_response] at h
  split at h
  case _ ctxa hALR =>
    injection h with h1 h2
    subst h1
    rw [hALR] at hok2; exact hok2
  case _ ctxa hALR =>
    rw [hALR] at hok2
    have hok3 := loadState_ctxOk env ctxa hok2
    split at h <;> (injection h with h1 h2; subst h1; exact hok3)

theorem modelValidate_ok_state (p : String → Option Url) (ps : Params)
    (ar : AuthorizationRequest) (h : modelValidateAuthRequest p ps = .ok ar) :
    ar.state = best_effort_extract_string "state" (some ps) := by
  simp only [modelValidateAuthRequest] at h
  split at h
  case _ =>
    rename_i a b c d e f g e1 e2 e3 e4 e5 e6 e7
    injection h with h
    subst h
    simp only [best_effort_extract_string]
    cases hg : getParam ps "state" with
    | none =>
      simp only [vOptStr, hg] at e6
      injection e6 with e6
      exact e6.symm
    | some v =>
      cases v with
      | str s =>
        simp only [vOptStr, hg] at e6
        injection e6 with e6
        exact e6.symm
      | file =>
        simp only [vOptStr, hg] at e6
        exact nomatch e6
  case _ => exact nomatch h

theorem modelValidate_ok_redirect (p : String → Option Url) (ps : Params)
    (ar : AuthorizationRequest) (h : modelValidateAuthRequest p ps = .ok ar) :
    (ar.redirect_uri = none → getParam ps "redirect_uri" = none) ∧
    (∀ u, ar.redirect_uri = some u →
      ∃ s, getParam ps "redirect_uri" = some (.str s) ∧ p s = some u) := by
  simp only [modelValidateAuthRequest] at h
  split at h
  case _ =>
    rename_i a b c d e f g e1 e2 e3 e4 e5 e6 e7
    injection h with h
    subst h
    cases hg : getParam ps "redirect_uri" with
    | none =>
      simp only [vOptUrl, hg] at e2
      injection e2 with e2
      exact ⟨fun _ => rfl, fun u hu => by rw [← e2] at hu; exact nomatch hu⟩
    | some v =>
      cases v with
      | str s =>
        simp only [vOptUrl, hg] at e2
        cases hp : p s with
        | none => rw [hp] at e2; exact nomatch e2
        | some u0 =>
          rw [hp] at e2
          injection e2 with e2
          constructor
          · intro hnone; rw [← e2] at hnone; exact nomatch hnone
          · intro u hu
            rw [← e2] at hu
            injection hu with hu
            exact ⟨s, rfl, hu ▸ hp⟩
      | file =>
        simp only [vOptUrl, hg] at e2
        exact nomatch e2
  case _ => exact nomatch h

theorem error_response_hasState (env : Env) (ctx : Ctx) (e : ErrorCode) (d : String)
    (alc : Bool) (ctx2 : Ctx) (r : Response)
    (h : error_response env ctx e d alc = (ctx2, .ok r))
    (hs : ctx.state = best_effort_extract_string "state" ctx.params) :
    RespHasState r ctx.state := by
  obtain ⟨hp, _, hok⟩ := error_response_spec env ctx e d alc ctx2 (.ok r) h
  obtain ⟨hst, hshape⟩ := hok r rfl
  have hst2 : ctx2.state = ctx.state := by
    cases hcs : ctx.state with
    | some s => rw [hst, hcs]
    | none =>
      rw [hst, hcs]
      show best_effort_extract_string "state" ctx.params = none
      rw [← hs, hcs]
  rcases hshape with ⟨u, c, hru, hcl, hr⟩ | ⟨hflag, hr⟩
  · subst hr
    exact ⟨u, e, d, by rw [hst2]⟩
  · subst hr
    simp only [RespHasState]
    exact hst2

theorem error_response_validated (env : Env) (ctx : Ctx) (e : ErrorCode) (d : String)
    (alc : Bool) (ctx2 : Ctx) (r : Response)
    (h : error_response env ctx e d alc = (ctx2, .ok r)) (hok : CtxOk env ctx) :
    ErrorRedirectValidated env r := by
  obtain ⟨_, _, hsp⟩ := error_response_spec env ctx e d alc ctx2 (.ok r) h
  obtain ⟨_, hshape⟩ := hsp r rfl
  have hok2 := error_response_ctxOk env ctx e d alc ctx2 (.ok r) h hok
  intro st loc hdrs hr
  rcases hshape with ⟨u, c, hru, hcl, hre⟩ | ⟨_, hre⟩
  · rw [hre] at hr
    injection hr with hr1 hr2 hr3
    obtain ⟨c0, cand, hc0, hval⟩ := hok2.2 u hru
    obtain ⟨cid, hcid⟩ := hok2.1 c0 hc0
    exact ⟨cid, c0, cand, u, hcid, hval, e, d, ctx2.state, hr2.symm⟩
  · rw [hre] at hr
    exact nomatch hr

theorem runCatchAll_hasState (env : Env) (ctx : Ctx) (r : Response)
    (h : runCatchAll env ctx = .ok r)
    (hs : ctx.state = best_effort_extract_string "state" ctx.params) :
    RespHasState r ctx.state := by
  unfold runCatchAll at h
  split at h
  case _ ctx3 r3 heq =>
    injection h with h
    subst h
    exact error_response_hasState env ctx _ _ _ ctx3 r3 heq hs
  case _ => exact nomatch h

theorem runCatchAll_validated (env : Env) (ctx : Ctx) (r : Response)
    (h : runCatchAll env ctx = .ok r) (hok : CtxOk env ctx) :
    ErrorRedirectValidated env r := by
  unfold runCatchAll at h
  split at h
  case _ ctx3 r3 heq =>
    injection h with h
    subst h
    exact error_response_validated env ctx _ _ _ ctx3 r3 heq hok
  case _ => exact nomatch h

theorem runErrorResponse_hasState (env : Env) (ctx : Ctx) (e : ErrorCode) (d : String)
    (alc : Bool) (r : Response)
    (h : runErrorResponse env ctx e d alc = .ok r)
    (hs : ctx.state = best_effort_extract_string "state" ctx.params) :
    RespHasState r ctx.state := by
  unfold runErrorResponse at h
  split at h
  case _ ctxa r0 heq =>
    injection h with h
    subst h
    exact error_response_hasState env ctx e d alc ctxa r0 heq hs
  case _ ctx2 u heq =>
    obtain ⟨hp, herr, _⟩ := error_response_spec env ctx e d alc ctx2 (.error u) heq
    have hst : ctx2.state = ctx.state := herr (by cases u; rfl)
    have hs2 : ctx2.state = best_effort_extract_string "state" ctx2.params := by
      rw [hst, hp]; exact hs
    have := runCatchAll_hasState env ctx2 r h hs2
    rw [hst] at this
    exact this

theorem runErrorResponse_validated (env : Env) (ctx : Ctx) (e : ErrorCode) (d : String)
    (alc : Bool) (r : Response)
    (h : runErrorResponse env ctx e d alc = .ok r) (hok : CtxOk env ctx) :
    ErrorRedirectValidated env r := by
  unfold runErrorResponse at h
  split at h
  case _ ctxa r0 heq =>
    injection h with h
    subst h
    exact error_response_validated env ctx e d alc ctxa r0 heq hok
  case _ ctx2 u heq =>
    have hok2 := error_response_ctxOk env ctx e d alc ctx2 (.error u) heq hok
    exact runCatchAll_validated env ctx2 r h hok2

theorem ctxOk_noClient (env : Env) (st : Option String) (ps : Option Params) :
    CtxOk env ⟨st, none, .noneV, ps⟩ :=
  ⟨(fun _ hc => nomatch hc), (fun _ hu => nomatch hu)⟩


theorem ctxOk_client (env : Env) (st : Option String) (ps : Option Params)
    (cid : String) (c : Client) (hc : env.get_client cid = some c) :
    CtxOk env ⟨st, none, .client c, ps⟩ :=
  ⟨(fun c2 hc2 => by cases hc2; exact ⟨cid, hc⟩), (fun _ hu => nomatch hu)⟩

theorem ctxOk_redirect (env : Env) (st : Option String) (ps : Option Params)
    (cid : String) (c : Client) (hc : env.get_client cid = some c)
    (cand : Option Url) (u : Url) (hv : validate_redirect_uri cand c = .ok u) :
    CtxOk env ⟨st, some u, .client c, ps⟩ :=
  ⟨fun c2 hc2 => by cases hc2; exact ⟨cid, hc⟩,
   fun u2 hu2 => by cases hu2; exact ⟨c, cand, rfl, hv⟩⟩

theorem handler_fail_run (env : Env) (ps : Params) (hfail : IsFailurePath env ps) :
    ∃ ctx e d alc, authorization_handler env ps = runErrorResponse env ctx e d alc ∧
      ctx.params = some ps ∧
      ctx.state = best_effort_extract_string "state" (some ps) ∧
      CtxOk env ctx := by
  rcases hfail with ⟨errs, herr⟩ | ⟨ar, hmv, hrest⟩
  · refine ⟨⟨best_effort_extract_string "state" (some ps), none, .noneV, some ps⟩,
      classifyParseError errs, stringify_pydantic_error errs, true, ?_, rfl, rfl,
      ctxOk_noClient env _ _⟩
    simp only [authorization_handler, herr]
  · have hstate := modelValidate_ok_state env.parseUrl ps ar hmv
    rcases hrest with hnone | ⟨c, hc, hrest⟩
    · refine ⟨⟨ar.state, none, .noneV, some ps⟩, .invalid_request,
        "Client ID " ++ ar.client_id ++ " not found", false, ?_, rfl, hstate,
        ctxOk_noClient env _ _⟩
      simp only [authorization_handler, hmv, hnone]
    · rcases hrest with ⟨m, hvru⟩ | ⟨u, hvru, hrest⟩
      · refine ⟨⟨ar.state, none, .client c, some ps⟩, .invalid_request, m, true, ?_, rfl, hstate,
          ctxOk_client env _ _ ar.client_id c hc⟩
        simp only [authorization_handler, hmv, hc, hvru]
      · rcases hrest with ⟨m, hvs⟩ | ⟨sc, hvs, hauth⟩
        · refine ⟨⟨ar.state, some u, .client c, some ps⟩, .invalid_scope, m, true, ?_, rfl, hstate,
            ctxOk_redirect env _ _ ar.client_id c hc ar.redirect_uri u hvru⟩
          simp only [authorization_handler, hmv, hc, hvru, hvs]
        · refine ⟨⟨ar.state, some u, .client c, some ps⟩, .server_error,
            "An unexpected error occurred", true, ?_, rfl, hstate,
            ctxOk_redirect env _ _ ar.client_id c hc ar.redirect_uri u hvru⟩
          simp only [authorization_handler, hmv, hc, hvru, hvs, hauth]

theorem runErrorResponse_of_ok (env : Env) (ctx : Ctx) (e : ErrorCode) (d : String)
    (alc : Bool) (ctx2 : Ctx) (r : Response)
    (h : error_response env ctx e d alc = (ctx2, .ok r)) :
    runErrorResponse env ctx e d alc = .ok r := by
  unfold runErrorResponse
  rw [h]

theorem error_response_noclient (env : Env) (st : Option String) (ps : Params)
    (e : ErrorCode) (d : String)
    (hs : st = best_effort_extract_string "state" (some ps)) :
    error_response env ⟨st, none, .noneV, some ps⟩ e d false =
      (⟨st, none, .noneV, some ps⟩,
       .ok (.jsonError 400 ⟨e, d, none, st⟩ [("Cache-Control", "no-store")])) := by
  cases st with
  | some s => rfl
  | none =>
    have h0 : error_response env ⟨none, none, .noneV, some ps⟩ e d false =
        (⟨best_effort_extract_string "state" (some ps), none, .noneV, some ps⟩,
         .ok (.jsonError 400 ⟨e, d, none, best_effort_extract_string "state" (some ps)⟩
           [("Cache-Control", "no-store")])) := rfl
    rw [h0, ← hs]

theorem error_response_withredirect (env : Env) (st : Option String) (ps : Params)
    (c : Client) (u : Url) (e : ErrorCode) (d : String) (alc : Bool)
    (hs : st = best_effort_extract_string "state" (some ps)) :
    error_response env ⟨st, some u, .client c, some ps⟩ e d alc =
      (⟨st, some u, .client c, some ps⟩,
       .ok (.redirect 302 (construct_redirect_uri u (errQuery e d st))
         [("Cache-Control", "no-store")])) := by
  cases st with
  | some s => rfl
  | none =>
    have h0 : error_response env ⟨none, some u, .client c, some ps⟩ e d alc =
        (⟨best_effort_extract_string "state" (some ps), some u, .client c, some ps⟩,
         .ok (.redirect 302 (construct_redirect_uri u
           (errQuery e d (best_effort_extract_string "state" (some ps))))
           [("Cache-Control", "no-store")])) := rfl
    rw [h0, ← hs]

theorem error_response_client_badredirect (env : Env) (st : Option String) (ps : Params)
    (c : Client) (e : ErrorCode) (d : String) (alc : Bool)
    (hs : st = best_effort_extract_string "state" (some ps))
    (hcase :
      (getParam ps "redirect_uri" = none ∧ ∃ m, validate_redirect_uri none c = .error m) ∨
      (∃ s u, getParam ps "redirect_uri" = some (.str s) ∧ env.parseUrl s = some u ∧
        ∃ m, validate_redirect_uri (some u) c = .error m)) :
    error_response env ⟨st, none, .client c, some ps⟩ e d alc =
      (⟨st, none, .client c, some ps⟩,
       .ok (.jsonError 400 ⟨e, d, none, st⟩ [("Cache-Control", "no-store")])) := by
  have halc : attemptLoadClient env ⟨st, none, .client c, some ps⟩ alc =
      ⟨st, none, .client c, some ps⟩ := rfl
  have halr : attemptLoadRedirect env ⟨st, none, .client c, some ps⟩ =
      (⟨st, none, .client c, some ps⟩, false) := by
    rcases hcase with ⟨hg, m, hm⟩ | ⟨s, u, hg, hp, m, hm⟩
    · simp [attemptLoadRedirect, hasKey, hg, hm]
    · simp [attemptLoadRedirect, hasKey, hg, best_effort_extract_string, hp, hm]
  have hls : loadState ⟨st, none, .client c, some ps⟩ = ⟨st, none, .client c, some ps⟩ := by
    cases st with
    | some s => rfl
    | none =>
      show (⟨best_effort_extract_string "state" (some ps), none, .client c, some ps⟩ : Ctx) = _
      rw [← hs]
  simp only [error_response, halc, halr, hls]

/-- C1: on every failing request, every 302 response the authorization handler
emits targets a URI that passed `validate_redirect_uri` against a client
resolved from the client directory (a byte-for-byte member of its registered
set, or its sole registered URI when the candidate was absent), with the error
report appended as query parameters; no error is ever redirected to a URI that
did not pass through `validate_redirect_uri`. -/
theorem c1_error_redirect_always_validated (env : Env) (ps : Params)
    (hfail : IsFailurePath env ps) (r : Response)
    (h : authorization_handler env ps = .ok r) :
    ErrorRedirectValidated env r := by
  obtain ⟨ctx, e, d, alc, heq, hp, hs, hok⟩ := handler_fail_run env ps hfail
  rw [heq] at h
  exact runErrorResponse_validated env ctx e d alc r h hok

/-- C2: an error report returned by `error_response` is a 302 redirect with the
error fields as query parameters if and only if, at reporting time (after the
best-effort recovery), both a resolved client and a resolved redirect URI are
available; in every other case it is a direct JSON response with status 400;
and both response forms carry a `Cache-Control: no-store` header. -/
theorem c2_error_channel_iff_trusted (env : Env) (ctx : Ctx) (e : ErrorCode) (d : String)
    (alc : Bool) (ctx2 : Ctx) (r : Response)
    (h : error_response env ctx e d alc = (ctx2, .ok r)) :
    ((∃ loc, r = .redirect 302 loc [("Cache-Control", "no-store")]) ↔
      (ctx2.redirect_uri.isSome && ctx2.client.isClient) = true) ∧
    ((∃ body, r = .jsonError 400 body [("Cache-Control", "no-store")]) ↔
      (ctx2.redirect_uri.isSome && ctx2.client.isClient) = false) ∧
    r.headersOf = [("Cache-Control", "no-store")] := by
  obtain ⟨_, _, hok⟩ := error_response_spec env ctx e d alc ctx2 (.ok r) h
  obtain ⟨_, hshape⟩ := hok r rfl
  rcases hshape with ⟨u, c, hru, hcl, hre⟩ | ⟨hflag, hre⟩
  · subst hre
    have hflag : (ctx2.redirect_uri.isSome && ctx2.client.isClient) = true := by
      rw [hru, hcl]; rfl
    refine ⟨⟨fun _ => hflag, fun _ => ⟨_, rfl⟩⟩, ⟨?_, ?_⟩, rfl⟩
    · rintro ⟨body, hb⟩; exact nomatch hb
    · intro hfalse; rw [hflag] at hfalse; exact nomatch hfalse
  · subst hre
    refine ⟨⟨?_, ?_⟩, ⟨fun _ => hflag, fun _ => ⟨_, rfl⟩⟩, rfl⟩
    · rintro ⟨loc, hl⟩; exact nomatch hl
    · intro htrue; rw [hflag] at htrue; exact nomatch htrue

/-- C4: a request that parses but whose `client_id` is unknown to the client
directory gets a direct 400 JSON response with error code `invalid_request`
(and the request's validated state echoed), never a redirect: the last-ditch
client lookup is suppressed on this path. -/
theorem c4_unknown_client_direct_400 (env : Env) (ps : Params)
    (ar : AuthorizationRequest)
    (hparse : modelValidateAuthRequest env.parseUrl ps = .ok ar)
    (hclient : env.get_client ar.client_id = none) :
    authorization_handler env ps =
      .ok (.jsonError 400
        ⟨.invalid_request, "Client ID " ++ ar.client_id ++ " not found", none, ar.state⟩
        [("Cache-Control", "no-store")]) := by
  have hstate := modelValidate_ok_state env.parseUrl ps ar hparse
  simp only [authorization_handler, hparse, hclient]
  exact runErrorResponse_of_ok env _ _ _ _ _ _
    (error_response_noclient env ar.state ps .invalid_request _ hstate)

/-- C6: a request that reaches redirect-URI resolution with a trusted client
and fails it (a supplied `redirect_uri` not in the registered set, or an
omitted one with zero or several registered URIs) gets a direct 400 JSON
response with error code `invalid_request`, never a redirect. -/
theorem c6_redirect_failure_direct_400 (env : Env) (ps : Params)
    (ar : AuthorizationRequest) (c : Client) (m : String)
    (hparse : modelValidateAuthRequest env.parseUrl ps = .ok ar)
    (hclient : env.get_client ar.client_id = some c)
    (hvru : validate_redirect_uri ar.redirect_uri c = .error m) :
    authorization_handler env ps =
      .ok (.jsonError 400 ⟨.invalid_request, m, none, ar.state⟩
        [("Cache-Control", "no-store")]) := by
  have hstate := modelValidate_ok_state env.parseUrl ps ar hparse
  obtain ⟨hrnone, hrsome⟩ := modelValidate_ok_redirect env.parseUrl ps ar hparse
  simp only [authorization_handler, hparse, hclient, hvru]
  refine runErrorResponse_of_ok env _ _ _ _ _ _
    (error_response_client_badredirect env ar.state ps c .invalid_request m true hstate ?_)
  cases hru : ar.redirect_uri with
  | none =>
    rw [hru] at hvru
    exact .inl ⟨hrnone hru, m, hvru⟩
  | some u =>
    rw [hru] at hvru
    obtain ⟨s, hg, hp⟩ := hrsome u hru
    exact .inr ⟨s, u, hg, hp, m, hvru⟩

/-- C7: on every failing request, the error report (JSON body or redirect
query parameters) carries exactly the state the request supplied: byte-for-byte
the raw string `state` parameter when one is present, and no state at all when
the request supplied none. -/
theorem c7_state_echoed_verbatim (env : Env) (ps : Params)
    (hfail : IsFailurePath env ps) (r : Response)
    (h : authorization_handler env ps = .ok r) :
    RespHasState r (best_effort_extract_string "state" (some ps)) := by
  obtain ⟨ctx, e, d, alc, heq, hp, hs, hok⟩ := handler_fail_run env ps hfail
  rw [heq] at h
  have hresult := runErrorResponse_hasState env ctx e d alc r h (by rw [hs, hp])
  rw [hs] at hresult
  exact hresult

/-- C8: when `redirect_uri` is omitted and the resolved client has exactly one
registered redirect URI, that URI is selected, and a scope-validation failure
is then reported as a 302 redirect to that URI carrying `invalid_scope` and
the echoed state as query parameters. -/
theorem c8_sole_uri_scope_error_redirects (env : Env) (ps : Params)
    (ar : AuthorizationRequest) (c : Client) (u : Url) (m : String)
    (hparse : modelValidateAuthRequest env.parseUrl ps = .ok ar)
    (hro : ar.redirect_uri = none)
    (hclient : env.get_client ar.client_id = some c)
    (huris : c.redirect_uris = [u])
    (hscope : validate_scope ar.scope c = .error m) :
    authorization_handler env ps =
      .ok (.redirect 302 (construct_redirect_uri u (errQuery .invalid_scope m ar.state))
        [("Cache-Control", "no-store")]) := by
  have hstate := modelValidate_ok_state env.parseUrl ps ar hparse
  have hvru : validate_redirect_uri ar.redirect_uri c = .ok u := by
    rw [hro]
    simp [validate_redirect_uri, huris]
  simp only [authorization_handler, hparse, hclient, hvru, hscope]
  exact runErrorResponse_of_ok env _ _ _ _ _ _
    (error_response_withredirect env ar.state ps c u .invalid_scope m true hstate)

/-- A registered client used by the concrete witnesses below. -/
def clientW : Client := ⟨"c", ["https://a/cb"], some "read write"⟩

/-- A client with two registered redirect URIs, for the multi-URI cases. -/
def clientW2 : Client := ⟨"c2", ["https://a/cb", "https://b/cb"], none⟩

/-- A concrete environment: a two-client directory, an authorization decision
that redirects to a consent page, and a URL parser accepting one URL. -/
def envW : Env :=
  { get_client := fun cid =>
      if cid = "c" then some clientW else if cid = "c2" then some clientW2 else none
    authorize := fun _ _ => .ok "https://next"
    parseUrl := fun s => if s = "https://a/cb" then some "https://a/cb" else none }

/-- A request for client `c` with a disallowed scope token and a state. -/
def paramsW : Params :=
  [("client_id", .str "c"), ("response_type", .str "code"),
   ("code_challenge", .str "x"), ("state", .str "st"), ("scope", .str "exec")]

/-- The parse of `paramsW`. -/
def arW : AuthorizationRequest := ⟨"c", none, "code", "x", "S256", some "st", some "exec"⟩

/-- A request naming an unknown client. -/
def paramsW4 : Params :=
  [("client_id", .str "zz"), ("response_type", .str "code"), ("code_challenge", .str "x")]

/-- The parse of `paramsW4`. -/
def arW4 : AuthorizationRequest := ⟨"zz", none, "code", "x", "S256", none, none⟩

/-- A request for the two-URI client `c2` omitting `redirect_uri`. -/
def paramsW6 : Params :=
  [("client_id", .str "c2"), ("response_type", .str "code"),
   ("code_challenge", .str "x"), ("state", .str "st")]

/-- The parse of `paramsW6`. -/
def arW6 : AuthorizationRequest := ⟨"c2", none, "code", "x", "S256", some "st", none⟩

/-- The failure-path evidence for `paramsW`: its scope validation fails. -/
theorem paramsW_fail : IsFailurePath envW paramsW :=
  Or.inr ⟨arW, rfl, Or.inr ⟨clientW, rfl, Or.inr ⟨"https://a/cb", rfl,
    Or.inl ⟨"Client was not registered with scope exec", rfl⟩⟩⟩⟩

theorem c1_witness :
    ErrorRedirectValidated envW (.redirect 302
      (construct_redirect_uri "https://a/cb"
        (errQuery .invalid_scope "Client was not registered with scope exec" (some "st")))
      [("Cache-Control", "no-store")]) :=
  c1_error_redirect_always_validated envW paramsW paramsW_fail _ rfl

theorem c2_witness :
    ((∃ loc, (Response.jsonError 400 ⟨.invalid_request, "d", none, none⟩
        [("Cache-Control", "no-store")]) = .redirect 302 loc [("Cache-Control", "no-store")]) ↔
      (((⟨none, none, .noneV, some []⟩ : Ctx).redirect_uri.isSome &&
        (⟨none, none, .noneV, some []⟩ : Ctx).client.isClient) = true)) ∧
    ((∃ body, (Response.jsonError 400 ⟨.invalid_request, "d", none, none⟩
        [("Cache-Control", "no-store")]) = .jsonError 400 body [("Cache-Control", "no-store")]) ↔
      (((⟨none, none, .noneV, some []⟩ : Ctx).redirect_uri.isSome &&
        (⟨none, none, .noneV, some []⟩ : Ctx).client.isClient) = false)) ∧
    (Response.jsonError 400 (⟨.invalid_request, "d", none, none⟩ : ErrorResponse)
      [("Cache-Control", "no-store")]).headersOf = [("Cache-Control", "no-store")] :=
  c2_error_channel_iff_trusted envW ⟨none, none, .noneV, some []⟩ .invalid_request "d" false
    ⟨none, none, .noneV, some []⟩ _ rfl

theorem c4_witness :
    authorization_handler envW paramsW4 =
      .ok (.jsonError 400
        ⟨.invalid_request, "Client ID " ++ "zz" ++ " not found", none, none⟩
        [("Cache-Control", "no-store")]) :=
  c4_unknown_client_direct_400 envW paramsW4 arW4 rfl rfl

theorem c6_witness :
    authorization_handler envW paramsW6 =
      .ok (.jsonError 400
        ⟨.invalid_request,
         "redirect_uri must be specified when client has multiple registered URIs",
         none, some "st"⟩
        [("Cache-Control", "no-store")]) :=
  c6_redirect_failure_direct_400 envW paramsW6 arW6 clientW2
    "redirect_uri must be specified when client has multiple registered URIs" rfl rfl rfl

theorem c7_witness :
    RespHasState (.redirect 302
      (construct_redirect_uri "https://a/cb"
        (errQuery .invalid_scope "Client was not registered with scope exec" (some "st")))
      [("Cache-Control", "no-store")]) (some "st") :=
  c7_state_echoed_verbatim envW paramsW paramsW_fail _ rfl

theorem c8_witness :
    authorization_handler envW paramsW =
      .ok (.redirect 302
        (construct_redirect_uri "https://a/cb"
          (errQuery .invalid_scope "Client was not registered with scope exec" (some "st")))
        [("Cache-Control", "no-store")]) :=
  c8_sole_uri_scope_error_redirects envW paramsW arW clientW "https://a/cb"
    "Client was not registered with scope exec" rfl rfl rfl rfl rfl

theorem vStrReq_error_loc {ps : Params} {k : String} {fe : FieldError}
    (h : vStrReq ps k = .error fe) : fe.loc = k := by
  unfold vStrReq at h
  split at h
  · injection h with h; subst h; rfl
  · exact nomatch h
  · injection h with h; subst h; rfl

theorem vOptStr_error_loc {ps : Params} {k : String} {fe : FieldError}
    (h : vOptStr ps k = .error fe) : fe.loc = k := by
  unfold vOptStr at h
  split at h
  · exact nomatch h
  · exact nomatch h
  · injection h with h; subst h; rfl

theorem vOptUrl_error_loc {p : String → Option Url} {ps : Params} {k : String} {fe : FieldError}
    (h : vOptUrl p ps k = .error fe) : fe.loc = k := by
  unfold vOptUrl at h
  split at h
  · exact nomatch h
  · split at h
    · exact nomatch h
    · injection h with h; subst h; rfl
  · injection h with h; subst h; rfl

theorem vLitDef_error_loc {ps : Params} {k lit : String} {fe : FieldError}
    (h : vLitDef ps k lit = .error fe) : fe.loc = k := by
  unfold vLitDef at h
  split at h
  · exact nomatch h
  · split at h
    · exact nomatch h
    · injection h with h; subst h; rfl
  · injection h with h; subst h; rfl

theorem errsOf_rt_false {α : Type} (r : Except FieldError α) (k : String)
    (hk : ∀ fe, r = .error fe → fe.loc = k) (hne : k ≠ "response_type") :
    (errsOf r).any isRespTypeLiteralError = false := by
  cases r with
  | ok a => rfl
  | error fe =>
    have hl := hk fe rfl
    simp [errsOf, isRespTypeLiteralError, hl, hne]

/-- The error code the handler selects at a parse failure, as a function of the
raw `response_type` parameter: `unsupported_response_type` exactly when the
parameter is present with a value other than the string `code` (in pydantic
terms, exactly when the failure at `response_type` is a `literal_error`), and
`invalid_request` in every other case, a missing `response_type` included. -/
theorem modelValidate_error_code (p : String → Option Url) (ps : Params)
    (errs : List FieldError) (h : modelValidateAuthRequest p ps = .error errs) :
    classifyParseError errs =
      (match getParam ps "response_type" with
       | some (.str s) => if s = "code" then .invalid_request else .unsupported_response_type
       | some .file => .unsupported_response_type
       | none => .invalid_request) := by
  simp only [modelValidateAuthRequest] at h
  split at h
  case _ => exact nomatch h
  case _ =>
    injection h with h
    subst h
    have h1 := errsOf_rt_false (vStrReq ps "client_id") "client_id"
      (fun fe hh => vStrReq_error_loc hh) (by decide)
    have h2 := errsOf_rt_false (vOptUrl p ps "redirect_uri") "redirect_uri"
      (fun fe hh => vOptUrl_error_loc hh) (by decide)
    have h4 := errsOf_rt_false (vStrReq ps "code_challenge") "code_challenge"
      (fun fe hh => vStrReq_error_loc hh) (by decide)
    have h5 := errsOf_rt_false (vLitDef ps "code_challenge_method" "S256") "code_challenge_method"
      (fun fe hh => vLitDef_error_loc hh) (by decide)
    have h6 := errsOf_rt_false (vOptStr ps "state") "state"
      (fun fe hh => vOptStr_error_loc hh) (by decide)
    have h7 := errsOf_rt_false (vOptStr ps "scope") "scope"
      (fun fe hh => vOptStr_error_loc hh) (by decide)
    unfold classifyParseError
    simp only [List.any_append, h1, h2, h4, h5, h6, h7, Bool.false_or, Bool.or_false]
    cases hg : getParam ps "response_type" with
    | none => simp [vLitReq, hg, errsOf, isRespTypeLiteralError]
    | some v =>
      cases v with
      | str s =>
        by_cases hsc : s = "code"
        · simp [vLitReq, hg, hsc, errsOf, isRespTypeLiteralError]
        · simp [vLitReq, hg, hsc, errsOf, isRespTypeLiteralError]
      | file => simp [vLitReq, hg, errsOf, isRespTypeLiteralError]

/-- C5 (amended): when parameter parsing fails, the selected error code is
`unsupported_response_type` if and only if `response_type` was present with a
value other than the literal string `code`; in every other case — a missing
`response_type` included — the selected error code is `invalid_request`. -/
theorem c5_parse_error_code_amended (p : String → Option Url) (ps : Params)
    (errs : List FieldError) (h : modelValidateAuthRequest p ps = .error errs) :
    (classifyParseError errs = .unsupported_response_type ↔
      ∃ v, getParam ps "response_type" = some v ∧ v ≠ .str "code") ∧
    (classifyParseError errs = .invalid_request ↔
      ¬ ∃ v, getParam ps "response_type" = some v ∧ v ≠ .str "code") := by
  rw [modelValidate_error_code p ps errs h]
  cases hg : getParam ps "response_type" with
  | none => simp
  | some v =>
    cases v with
    | str s =>
      by_cases hsc : s = "code"
      · subst hsc; simp
      · simp [hsc]
    | file => simp

/-- The environment of the C5 counterexample: an empty client directory. -/
def envC5 : Env := ⟨fun _ => none, fun _ _ => .error (), fun _ => none⟩

/-- A request that omits `response_type` entirely. -/
def paramsC5 : Params := [("client_id", .str "c"), ("code_challenge", .str "x")]

/-- C5 (counterexample): a request whose `response_type` is missing fails
parsing with a pydantic `missing` error, not a `literal_error`, so the
handler reports `invalid_request` — not `unsupported_response_type` as the
claim demands for a missing `response_type`. -/
theorem c5_counterexample :
    getParam paramsC5 "response_type" = none ∧
    modelValidateAuthRequest envC5.parseUrl paramsC5 = .error [⟨"response_type", "missing"⟩] ∧
    classifyParseError [⟨"response_type", "missing"⟩] = .invalid_request ∧
    authorization_handler envC5 paramsC5 =
      .ok (.jsonError 400 ⟨.invalid_request, "response_type: missing", none, none⟩
        [("Cache-Control", "no-store")]) :=
  ⟨rfl, rfl, rfl, rfl⟩

theorem c5_witness :
    (classifyParseError [⟨"response_type", "missing"⟩] = .unsupported_response_type ↔
      ∃ v, getParam paramsC5 "response_type" = some v ∧ v ≠ .str "code") ∧
    (classifyParseError [⟨"response_type", "missing"⟩] = .invalid_request ↔
      ¬ ∃ v, getParam paramsC5 "response_type" = some v ∧ v ≠ .str "code") :=
  c5_parse_error_code_amended envC5.parseUrl paramsC5 [⟨"response_type", "missing"⟩] rfl

/-- The registered client of the C3 failing input. -/
def clientC3 : Client := ⟨"c", ["https://a/cb"], none⟩

/-- The environment of the C3 failing input: `c` resolves, `bad` does not
parse as a URL. -/
def envC3 : Env :=
  ⟨fun cid => if cid = "c" then some clientC3 else none,
   fun _ _ => .ok "https://next",
   fun s => if s = "https://a/cb" then some "https://a/cb" else none⟩

/-- The C3 failing input: a present-but-malformed `redirect_uri` together with
a resolvable `client_id`. -/
def paramsC3 : Params :=
  [("client_id", .str "c"), ("redirect_uri", .str "bad"),
   ("response_type", .str "code"), ("code_challenge", .str "x")]

/-- C3 (code bug): the handler is not total.  On a request whose raw
`redirect_uri` is present but not a well-formed URL while the client is
resolvable, the `AnyHttpUrlModel.model_validate` call of `error_response`
(authorize.py line 132, outside the `try` of lines 133-136) raises a
`ValidationError`; the catch-all re-enters `error_response`, which raises
again inside the `except` block, and the exception propagates unhandled to the
transport layer (`Except.error ()`), instead of being swallowed and reported
as `server_error` as the claim (and the `except (ValidationError, ...)`
clause, which is unreachable as written) intends. -/
theorem c3_unhandled_exception_on_malformed_redirect :
    envC3.get_client "c" = some clientC3 ∧
    getParam paramsC3 "redirect_uri" = some (.str "bad") ∧
    envC3.parseUrl "bad" = none ∧
    authorization_handler envC3 paramsC3 = .error () :=
  ⟨rfl, rfl, rfl, rfl⟩

/-- C9: the revocation handler invokes the configured token-revocation hook
only after client authentication succeeds — on a parse or authentication
failure the hook is never invoked — and whenever parsing and authentication
both succeed it returns a 200 response with an empty body, `Cache-Control:
no-store` and `Pragma: no-cache`, whatever token the request presented. -/
theorem c9_revocation_hook_after_auth (hasHook : Bool)
    (authenticate : RevocationRequest → Except String String)
    (parsed : Except String RevocationRequest) :
    ((revocation_handler hasHook authenticate parsed).hookInvoked = true →
      ∃ req c, parsed = .ok req ∧ authenticate req = .ok c) ∧
    (∀ req e, parsed = .ok req → authenticate req = .error e →
      (revocation_handler hasHook authenticate parsed).hookInvoked = false) ∧
    (∀ e, parsed = .error e →
      (revocation_handler hasHook authenticate parsed).hookInvoked = false) ∧
    (∀ req c, parsed = .ok req → authenticate req = .ok c →
      revocation_handler hasHook authenticate parsed =
        ⟨hasHook, .ok (.empty 200 [("Cache-Control", "no-store"), ("Pragma", "no-cache")])⟩) := by
  refine ⟨?_, ?_, ?_, ?_⟩
  · intro h
    cases hp : parsed with
    | error e =>
      rw [hp] at h
      exact nomatch h
    | ok req =>
      cases ha : authenticate req with
      | error e =>
        rw [hp] at h
        simp only [revocation_handler, ha] at h
        exact nomatch h
      | ok c => exact ⟨req, c, rfl, ha⟩
  · intro req e hp ha
    rw [hp]
    simp only [revocation_handler, ha]
  · intro e hp
    rw [hp]
    rfl
  · intro req c hp ha
    rw [hp]
    simp only [revocation_handler, ha]

/-- A concrete revocation request for the C9 witness. -/
def reqW9 : RevocationRequest := ⟨"tok", none, "c", some "secret"⟩

/-- An authenticator accepting every request, for the C9 witness. -/
def authW9 : RevocationRequest → Except String String := fun _ => .ok "c"

theorem c9_witness :
    revocation_handler true authW9 (.ok reqW9) =
      ⟨true, .ok (.empty 200 [("Cache-Control", "no-store"), ("Pragma", "no-cache")])⟩ :=
  (c9_revocation_hook_after_auth true authW9 (.ok reqW9)).2.2.2 reqW9 "c" rfl rfl

/-- C10: for a client registered without a scope string, scope validation
rejects every request that supplies a scope parameter — the empty string
included, whose split is the single empty token, absent from the empty allowed
set — so it can succeed only when the request omits the scope parameter, in
which case it returns no constraint.  This holds of both the free
`validate_scope` of the handler module and `OAuthClientMetadata.validate_scope`
of the shared data model. -/
theorem c10_scopeless_client_rejects_all_scopes (c : Client) (h : c.scope = none) :
    (∀ s : String,
      validate_scope (some s) c =
        .error ("Client was not registered with scope " ++ (pySplitSpace s).headI) ∧
      Client.validate_scope c (some s) =
        .error ("Client was not registered with scope " ++ (pySplitSpace s).headI)) ∧
    validate_scope none c = .ok none ∧
    Client.validate_scope c none = .ok none := by
  refine ⟨?_, rfl, rfl⟩
  intro s
  have hsp := pySplitSpace_ne_nil s
  constructor
  · unfold validate_scope
    rw [h]
    cases hl : pySplitSpace s with
    | nil => exact absurd hl hsp
    | cons t rest => simp [hl, List.find?]
  · unfold Client.validate_scope
    rw [h]
    cases hl : pySplitSpace s with
    | nil => exact absurd hl hsp
    | cons t rest => simp [hl, List.find?]

/-- A scopeless client for the C10 witness. -/
def clientC10 : Client := ⟨"c", ["https://a/cb"], none⟩

theorem c10_witness :
    validate_scope (some "") clientC10 =
      .error ("Client was not registered with scope " ++ (pySplitSpace "").headI) ∧
    validate_scope none clientC10 = .ok none := by
  obtain ⟨h1, h2, h3⟩ := c10_scopeless_client_rejects_all_scopes clientC10 rfl
  exact ⟨(h1 "").1, h2⟩

end McpAuth
